import Mathlib

/-!
Shallow embedding of the mostro-watchdog core (src/main.rs, src/config.rs).
Time is modelled in whole seconds as `Nat` (the `u64` values Rust's
`Duration::as_secs` produces); `SystemTime` values are seconds since the
Unix epoch.  Fallible clock subtractions (`SystemTime::duration_since`)
are modelled explicitly with their `unwrap_or` defaults.
-/

namespace MostroWatchdog

/-- `Duration::MAX.as_secs()` (u64::MAX). -/
def u64Max : Nat := 2 ^ 64 - 1

/-- `t.elapsed().unwrap_or(Duration::ZERO).as_secs()` at clock value `now`. -/
def elapsedOrZero (t now : Nat) : Nat := if t ≤ now then now - t else 0

/-- `t.elapsed().unwrap_or(Duration::MAX).as_secs()` at clock value `now`. -/
def elapsedOrMax (t now : Nat) : Nat := if t ≤ now then now - t else u64Max

/-- `HealthMonitor` state (src/main.rs lines 16-28); the `Arc<RwLock<_>>`
cells become plain fields of an explicitly threaded state value. -/
structure HealthMonitor where
  last_event_time : Option Nat
  last_heartbeat : Option Nat
  start_time : Nat
  events_processed : Nat
  is_healthy : Bool
deriving DecidableEq

/-- `HealthMonitor::new` (lines 31-39) at clock value `now`. -/
def HealthMonitor.new (now : Nat) : HealthMonitor :=
  { last_event_time := none
  , last_heartbeat := none
  , start_time := now
  , events_processed := 0
  , is_healthy := true }

/-- `HealthMonitor::record_event` (lines 42-45) at clock value `now`. -/
def HealthMonitor.record_event (m : HealthMonitor) (now : Nat) : HealthMonitor :=
  { m with last_event_time := some now, events_processed := m.events_processed + 1 }

/-- `HealthMonitor::record_heartbeat` (lines 48-50) at clock value `now`. -/
def HealthMonitor.record_heartbeat (m : HealthMonitor) (now : Nat) : HealthMonitor :=
  { m with last_heartbeat := some now }

/-- `HealthMonitor::should_alert_no_events` (lines 53-70) at clock value `now`. -/
def HealthMonitor.should_alert_no_events (m : HealthMonitor) (threshold_seconds now : Nat) :
    Bool :=
  if threshold_seconds = 0 then false
  else
    match m.last_event_time with
    | none => decide (elapsedOrZero m.start_time now > threshold_seconds)
    | some last => decide (elapsedOrMax last now > threshold_seconds)

/-- Rendering of an optional timestamp in `get_status_json` (lines 98-103). -/
def optTsString : Option Nat → String
  | some t => toString t
  | none => "null"

/-- `HealthMonitor::get_status_json` (lines 73-106); `version` stands for the
`CARGO_PKG_VERSION` constant baked in at build time. -/
def HealthMonitor.get_status_json (m : HealthMonitor) (now : Nat) (version : String) :
    String :=
  let uptime_secs := elapsedOrZero m.start_time now
  "\x7b\"status\":\"" ++ (if m.is_healthy then "healthy" else "unhealthy") ++
    "\",\"uptime_seconds\":" ++ toString uptime_secs ++
    ",\"events_processed\":" ++ toString m.events_processed ++
    ",\"last_event_timestamp\":" ++ optTsString m.last_event_time ++
    ",\"last_heartbeat_timestamp\":" ++ optTsString m.last_heartbeat ++
    ",\"version\":\"" ++ version ++ "\"\x7d"

/-- Spec-side status snapshot with the `"healthy"` branch hard-coded:
the rendering `get_status_json` must produce if `is_healthy` is
invariantly true (the `"unhealthy"` branch being unreachable). -/
def statusJsonHealthy (m : HealthMonitor) (now : Nat) (version : String) : String :=
  let uptime_secs := elapsedOrZero m.start_time now
  "\x7b\"status\":\"" ++ "healthy" ++
    "\",\"uptime_seconds\":" ++ toString uptime_secs ++
    ",\"events_processed\":" ++ toString m.events_processed ++
    ",\"last_event_timestamp\":" ++ optTsString m.last_event_time ++
    ",\"last_heartbeat_timestamp\":" ++ optTsString m.last_heartbeat ++
    ",\"version\":\"" ++ version ++ "\"\x7d"

/-- The writes the program ever performs on a `HealthMonitor` after
construction: `record_event` (event loop) and `record_heartbeat`
(heartbeat task).  No code path writes `is_healthy`. -/
inductive HealthOp where
  | recordEvent (now : Nat)
  | recordHeartbeat (now : Nat)

def applyOp (m : HealthMonitor) : HealthOp → HealthMonitor
  | .recordEvent now => m.record_event now
  | .recordHeartbeat now => m.record_heartbeat now

/-- Any state reachable from `HealthMonitor::new` by the program's writes. -/
def runOps (start : Nat) (ops : List HealthOp) : HealthMonitor :=
  ops.foldl applyOp (HealthMonitor.new start)

/-- The parsed dispute fields of `handle_dispute_event` (lines 572-586). -/
structure DisputeFields where
  dispute_id : String
  status : String
  initiator : String
deriving DecidableEq

/-- One iteration of the tag-scanning loop (lines 576-586): a tag is
considered only when it has at least two elements; element 0 is the key,
element 1 the value. -/
def scanTag (acc : DisputeFields) (tag_vec : List String) : DisputeFields :=
  match tag_vec with
  | k :: v :: _ =>
    if k = "d" then { acc with dispute_id := v }
    else if k = "s" then { acc with status := v }
    else if k = "initiator" then { acc with initiator := v }
    else acc
  | _ => acc

/-- The tag-scanning loop of `handle_dispute_event` (lines 572-586). -/
def parseDisputeTags (tags : List (List String)) : DisputeFields :=
  tags.foldl scanTag
    { dispute_id := "unknown", status := "unknown", initiator := "unknown" }

/-- Spec-side view of one tag: its value when it qualifies for `key`. -/
def tagKeyVal (key : String) (tag : List String) : Option String :=
  match tag with
  | k :: v :: _ => if k = key then some v else none
  | _ => none

/-- Spec-side parser ("last occurrence of a repeated key wins, missing
fields default to the literal string unknown"): the value of the last
qualifying tag for `key`, if any. -/
def lastTagValue (key : String) (tags : List (List String)) : Option String :=
  (tags.filterMap (tagKeyVal key)).getLast?

/-- Spec-side `DisputeEventParser` built from `lastTagValue`. -/
def specDispute (tags : List (List String)) : DisputeFields :=
  { dispute_id := (lastTagValue "d" tags).getD "unknown"
  , status := (lastTagValue "s" tags).getD "unknown"
  , initiator := (lastTagValue "initiator" tags).getD "unknown" }

/-- `AlertsConfig` (src/config.rs lines 14-33). -/
structure AlertsConfig where
  initiated : Bool
  in_progress : Bool
  seller_refunded : Bool
  settled : Bool
  released : Bool
  other : Bool
deriving DecidableEq

/-- `AlertsConfig::default` (src/config.rs lines 39-50). -/
def AlertsConfig.default : AlertsConfig :=
  { initiated := true, in_progress := true, seller_refunded := true
  , settled := true, released := true, other := true }

/-- The status-to-gate match of `handle_dispute_event` (lines 594-601);
the test module names this same logic `should_send_alert`. -/
def should_send_alert (status : String) (alerts_config : AlertsConfig) : Bool :=
  if status = "initiated" then alerts_config.initiated
  else if status = "in-progress" then alerts_config.in_progress
  else if status = "seller-refunded" then alerts_config.seller_refunded
  else if status = "settled" then alerts_config.settled
  else if status = "released" then alerts_config.released
  else alerts_config.other

/-- The escaped character set of `escape_markdown` (lines 755-757). -/
def special_chars : List Char :=
  ['_', '*', '[', ']', '(', ')', '~', '\x60', '>', '#', '+', '-', '=', '|',
   '\x7b', '\x7d', '.', '!']

/-- The character loop of `escape_markdown` (lines 758-764). -/
def escape_markdown_chars : List Char → List Char
  | [] => []
  | c :: cs =>
    (if special_chars.contains c then ['\\', c] else [c]) ++ escape_markdown_chars cs

/-- `escape_markdown` (lines 754-766). -/
def escape_markdown (text : String) : String :=
  String.mk (escape_markdown_chars text.data)

/-- The character loop of `escape_markdown_code` (lines 772-777). -/
def escape_markdown_code_chars : List Char → List Char
  | [] => []
  | c :: cs =>
    (if c = '\x60' ∨ c = '\\' then ['\\', c] else [c]) ++ escape_markdown_code_chars cs

/-- `escape_markdown_code` (lines 770-779). -/
def escape_markdown_code (text : String) : String :=
  String.mk (escape_markdown_code_chars text.data)

/-- The 17 characters the spec lists as untouched by `escapeCode`
(the full-escape set minus the backtick). -/
def code_untouched_chars : List Char :=
  ['_', '*', '[', ']', '(', ')', '~', '>', '#', '+', '-', '=', '|',
   '\x7b', '\x7d', '.', '!']

/-- The two's-complement cast `unix as i64` for a `u64` value. -/
def u64ToI64 (unix : Nat) : Int :=
  if unix % 2 ^ 64 < 2 ^ 63 then (unix % 2 ^ 64 : Int)
  else (unix % 2 ^ 64 : Int) - 2 ^ 64

/-- The `days_in_year` computation of `chrono_timestamp` (lines 709-713);
Rust `%` on `i64` is truncated remainder, `Int.tmod`. -/
def days_in_year (y : Int) : Int :=
  if y.tmod 4 = 0 ∧ (y.tmod 100 ≠ 0 ∨ y.tmod 400 = 0) then 366 else 365

/-- The year loop of `chrono_timestamp` (lines 706-719), translated
verbatim: advance a year while at least a full year of days remains.
Terminates because each iteration removes `days_in_year y ≥ 365 > 0`
days from `remaining`. -/
def yearLoopRec (y : Int) (remaining : Int) : Int × Int :=
  if remaining < days_in_year y then (y, remaining)
  else yearLoopRec (y + 1) (remaining - days_in_year y)
termination_by remaining.toNat
decreasing_by
  have h365 : (365 : Int) ≤ days_in_year y := by
    unfold days_in_year; split <;> omega
  rename_i hlt
  rw [Int.toNat_lt_toNat (by omega)]
  omega

/-- Fuel-indexed version of the year loop, structurally recursive so that
it evaluates inside the kernel; `yearLoopRec` reaches its exit condition
within `remaining.toNat + 1` iterations. -/
def yearLoopAux : Nat → Int → Int → Int × Int
  | 0, y, remaining => (y, remaining)
  | fuel + 1, y, remaining =>
    if remaining < days_in_year y then (y, remaining)
    else yearLoopAux fuel (y + 1) (remaining - days_in_year y)

/-- The `month_days` array (lines 721-734) for a given leap flag. -/
def month_days (leap : Bool) : List Int :=
  [31, if leap then 29 else 28, 31, 30, 31, 30, 31, 31, 30, 31, 30, 31]

/-- The month loop of `chrono_timestamp` (lines 735-742). -/
def monthLoop : List Int → Int → Nat → Nat × Int
  | [], remaining, m => (m, remaining)
  | md :: rest, remaining, m =>
    if remaining < md then (m, remaining)
    else monthLoop rest (remaining - md) (m + 1)

/-- Rust's `{:0w}` zero-padded integer formatting for `i64` values:
zeros are inserted between the sign and the digits. -/
def padNum (width : Nat) (n : Int) : String :=
  if n < 0 then
    "-" ++ String.mk (List.replicate (width - 1 - (toString n.natAbs).length) '0') ++
      toString n.natAbs
  else
    String.mk (List.replicate (width - (toString n.toNat).length) '0') ++ toString n.toNat

/-- The leap test of `chrono_timestamp` (lines 709, 720):
`y % 4 == 0 && (y % 100 != 0 || y % 400 == 0)`. -/
def leapOf (y : Int) : Bool :=
  decide (y.tmod 4 = 0 ∧ (y.tmod 100 ≠ 0 ∨ y.tmod 400 = 0))

/-- The year/month/day computation of `chrono_timestamp` (lines 706-742):
year loop, leap test, month loop; returns 1-based month and day. -/
def chronoDate (days : Int) : Int × Nat × Int :=
  let yr := yearLoopRec 1970 days
  let leap : Bool := leapOf yr.1
  let mr := monthLoop (month_days leap) yr.2 0
  (yr.1, mr.1 + 1, mr.2 + 1)

/-- Fuel-based variant of `chronoDate` (same leap test and month loop,
year loop run on explicit fuel `days.toNat + 1`). -/
def chronoDateFuel (days : Int) : Int × Nat × Int :=
  let yr := yearLoopAux (days.toNat + 1) 1970 days
  let leap : Bool := leapOf yr.1
  let mr := monthLoop (month_days leap) yr.2 0
  (yr.1, mr.1 + 1, mr.2 + 1)

/-- Year component of `chronoDate`. -/
def chronoY (days : Int) : Int := (chronoDate days).1

/-- Month (1-based) component of `chronoDate`. -/
def chronoM (days : Int) : Nat := (chronoDate days).2.1

/-- Day (1-based) component of `chronoDate`. -/
def chronoD (days : Int) : Int := (chronoDate days).2.2

/-- `chrono_timestamp` (lines 697-752).  Rust `/` and `%` on `i64` are
truncated division and remainder (`Int.tdiv` / `Int.tmod`). -/
def chrono_timestamp (unix : Nat) : String :=
  let secs := u64ToI64 unix
  let days := secs.tdiv 86400
  let time_secs := secs.tmod 86400
  let hours := time_secs.tdiv 3600
  let minutes := (time_secs.tmod 3600).tdiv 60
  let seconds := time_secs.tmod 60
  let ymd := chronoDate days
  padNum 4 ymd.1 ++ "-" ++ padNum 2 (ymd.2.1 : Int) ++ "-" ++ padNum 2 ymd.2.2 ++ " " ++
    padNum 2 hours ++ ":" ++ padNum 2 minutes ++ ":" ++ padNum 2 seconds ++ " UTC"

/-- `chrono_timestamp` with the fuel-based year loop (kernel-evaluable). -/
def chrono_timestamp_fuel (unix : Nat) : String :=
  let secs := u64ToI64 unix
  let days := secs.tdiv 86400
  let time_secs := secs.tmod 86400
  let hours := time_secs.tdiv 3600
  let minutes := (time_secs.tmod 3600).tdiv 60
  let seconds := time_secs.tmod 60
  let ymd := chronoDateFuel days
  padNum 4 ymd.1 ++ "-" ++ padNum 2 (ymd.2.1 : Int) ++ "-" ++ padNum 2 ymd.2.2 ++ " " ++
    padNum 2 hours ++ ":" ++ padNum 2 minutes ++ ":" ++ padNum 2 seconds ++ " UTC"

/-- Spec-side day count of the years `[1970, 1970 + n)` (equivalently of
`[y, y + n)` from `y`), under the standard Gregorian leap-year test. -/
def sumYearsFrom (y : Int) : Nat → Int
  | 0 => 0
  | n + 1 => days_in_year y + sumYearsFrom (y + 1) n

/-- Spec-side length of 1-based month `m` of year `y`. -/
def daysInMonth (y : Int) (m : Nat) : Int :=
  (month_days (leapOf y)).getD (m - 1) 0

/-- Spec-side proleptic-Gregorian day count since 1970-01-01 of the civil
date `(y, m, d)` (1-based month and day). -/
def days_from_civil (y : Int) (m : Nat) (d : Int) : Int :=
  sumYearsFrom 1970 (y - 1970).toNat + ((month_days (leapOf y)).take (m - 1)).sum + d - 1

/-- The six message templates of `handle_dispute_event` (lines 612-681). -/
def disputeMessage (f : DisputeFields) (created_at : Nat) : String :=
  let idCode := escape_markdown_code f.dispute_id
  let time := escape_markdown (chrono_timestamp created_at)
  if f.status = "initiated" then
    "🚨 *NEW DISPUTE*\n\n📋 *Dispute ID:* \x60" ++ idCode ++
      "\x60\n👤 *Initiated by:* " ++ escape_markdown f.initiator ++
      "\n⏰ *Time:* " ++ time ++
      "\n\n⚡ Please take this dispute in Mostrix or your admin client\\."
  else if f.status = "in-progress" then
    "🔄 *DISPUTE IN PROGRESS*\n\n📋 *Dispute ID:* \x60" ++ idCode ++
      "\x60\n👨‍⚖️ *Status:* Taken by solver\n⏰ *Time:* " ++ time ++
      "\n\nℹ️ Dispute is now being handled\\."
  else if f.status = "seller-refunded" then
    "💰 *DISPUTE RESOLVED*\n\n📋 *Dispute ID:* \x60" ++ idCode ++
      "\x60\n✅ *Resolution:* Seller refunded\n⏰ *Time:* " ++ time ++
      "\n\n✔️ Dispute closed: funds returned to seller\\."
  else if f.status = "settled" then
    "✅ *DISPUTE RESOLVED*\n\n📋 *Dispute ID:* \x60" ++ idCode ++
      "\x60\n💸 *Resolution:* Payment to buyer\n⏰ *Time:* " ++ time ++
      "\n\n✔️ Dispute closed: buyer receives payment\\."
  else if f.status = "released" then
    "🔓 *DISPUTE RESOLVED*\n\n📋 *Dispute ID:* \x60" ++ idCode ++
      "\x60\n🤝 *Resolution:* Released by seller\n⏰ *Time:* " ++ time ++
      "\n\n✔️ Dispute closed: trade completed\\."
  else
    "📡 *DISPUTE STATUS UPDATE*\n\n📋 *Dispute ID:* \x60" ++ idCode ++
      "\x60\n📊 *Status:* " ++ escape_markdown f.status ++
      "\n⏰ *Time:* " ++ time ++ "\n\nℹ️ Status changed\\."

/-- `handle_dispute_event` (lines 566-695), with the Telegram side effect
made explicit: the list of `send_message` calls it performs (empty when
the gate is disabled, one message when it is enabled). -/
def handle_dispute_event (tags : List (List String)) (created_at : Nat)
    (alerts_config : AlertsConfig) : List String :=
  let f := parseDisputeTags tags
  let alert_enabled := should_send_alert f.status alerts_config
  if !alert_enabled then []
  else [disputeMessage f created_at]

/-- One observed tick of the event-silence task: the wall-clock time of
the tick, the shared health state it reads, and whether the Telegram
send succeeds if attempted. -/
structure SilenceTick where
  now : Nat
  health : HealthMonitor
  sendOk : Bool
deriving DecidableEq

/-- One iteration of the event-silence loop (lines 266-312): attempt an
alert when `should_alert_no_events` holds and at least `threshold`
seconds passed since `last_alert`
(`now.duration_since(last_alert).unwrap_or(Duration::MAX)`); the marker
is updated only when the send succeeds.  Returns the new `last_alert`
and whether an alert was successfully sent. -/
def silenceTickStep (threshold last_alert : Nat) (tk : SilenceTick) : Nat × Bool :=
  if tk.health.should_alert_no_events threshold tk.now then
    if threshold ≤ elapsedOrMax last_alert tk.now then
      if tk.sendOk then (tk.now, true) else (last_alert, false)
    else (last_alert, false)
  else (last_alert, false)

/-- Run of the event-silence task over a trace of ticks, from a given
`last_alert` marker (initially `UNIX_EPOCH`, line 264): the times of the
successfully sent alerts. -/
def silenceRun (threshold : Nat) : Nat → List SilenceTick → List Nat
  | _, [] => []
  | last_alert, tk :: rest =>
    let st := silenceTickStep threshold last_alert tk
    (if st.2 then [tk.now] else []) ++ silenceRun threshold st.1 rest

/-- Minimum separation of two alert times. -/
def sepBy (threshold a b : Nat) : Prop := a + threshold ≤ b

/-! ### Helper lemmas -/

theorem getLast?_getD_cons {α : Type} (rest : List α) :
    ∀ v dflt : α, ((v :: rest).getLast?).getD dflt = (rest.getLast?).getD v := by
  induction rest with
  | nil => intro v dflt; rfl
  | cons w ws ih =>
    intro v dflt
    rw [List.getLast?_cons_cons, ih w dflt]
    exact (ih w v).symm

theorem foldl_scanTag_proj (p : DisputeFields → String) (key : String)
    (H1 : ∀ (acc : DisputeFields) (v : String) (rest : List String),
      p (scanTag acc (key :: v :: rest)) = v)
    (H2 : ∀ (acc : DisputeFields) (k v : String) (rest : List String), k ≠ key →
      p (scanTag acc (k :: v :: rest)) = p acc) :
    ∀ (tags : List (List String)) (acc : DisputeFields),
      p (tags.foldl scanTag acc)
        = ((tags.filterMap (tagKeyVal key)).getLast?).getD (p acc) := by
  intro tags
  induction tags with
  | nil => intro acc; rfl
  | cons t ts ih =>
    intro acc
    rw [List.foldl_cons, ih]
    rcases t with _ | ⟨k, t'⟩
    · rw [List.filterMap_cons_none (show tagKeyVal key [] = none from rfl)]
      rfl
    rcases t' with _ | ⟨v, rest⟩
    · rw [List.filterMap_cons_none (show tagKeyVal key [k] = none from rfl)]
      rfl
    by_cases hk : k = key
    · subst hk
      rw [List.filterMap_cons_some
        (show tagKeyVal k (k :: v :: rest) = some v by simp [tagKeyVal])]
      rw [H1, getLast?_getD_cons]
    · rw [List.filterMap_cons_none
        (show tagKeyVal key (k :: v :: rest) = none by simp [tagKeyVal, hk])]
      rw [H2 acc k v rest hk]

theorem parse_dispute_id (tags : List (List String)) :
    (parseDisputeTags tags).dispute_id
      = ((tags.filterMap (tagKeyVal "d")).getLast?).getD "unknown" := by
  unfold parseDisputeTags
  exact foldl_scanTag_proj (fun f => f.dispute_id) "d"
    (by intro acc v rest; simp [scanTag])
    (by intro acc k v rest hk; simp only [scanTag, if_neg hk]; split_ifs <;> rfl)
    tags _

theorem parse_status (tags : List (List String)) :
    (parseDisputeTags tags).status
      = ((tags.filterMap (tagKeyVal "s")).getLast?).getD "unknown" := by
  unfold parseDisputeTags
  exact foldl_scanTag_proj (fun f => f.status) "s"
    (by intro acc v rest; simp [scanTag])
    (by intro acc k v rest hk; simp only [scanTag]; split_ifs <;> simp_all)
    tags _

theorem parse_initiator (tags : List (List String)) :
    (parseDisputeTags tags).initiator
      = ((tags.filterMap (tagKeyVal "initiator")).getLast?).getD "unknown" := by
  unfold parseDisputeTags
  exact foldl_scanTag_proj (fun f => f.initiator) "initiator"
    (by intro acc v rest; simp [scanTag])
    (by intro acc k v rest hk; simp only [scanTag]; split_ifs <;> simp_all)
    tags _

theorem disputeFields_ext (f g : DisputeFields) (h1 : f.dispute_id = g.dispute_id)
    (h2 : f.status = g.status) (h3 : f.initiator = g.initiator) : f = g := by
  cases f; cases g; simp_all

theorem foldl_applyOp_healthy (ops : List HealthOp) :
    ∀ m : HealthMonitor, m.is_healthy = true → (ops.foldl applyOp m).is_healthy = true := by
  induction ops with
  | nil => intro m hm; simpa using hm
  | cons op ops ih =>
    intro m hm
    rw [List.foldl_cons]
    refine ih _ ?_
    cases op <;>
      simp [applyOp, HealthMonitor.record_event, HealthMonitor.record_heartbeat, hm]

theorem get_status_json_healthy (m : HealthMonitor) (now : Nat) (version : String)
    (hm : m.is_healthy = true) :
    m.get_status_json now version = statusJsonHealthy m now version := by
  unfold HealthMonitor.get_status_json statusJsonHealthy
  rw [hm]
  simp

/-! ### Claims -/

/-- C1: `should_alert_no_events` returns false when the threshold is 0;
with a positive threshold and no recorded event it alerts exactly when the
uptime strictly exceeds the threshold; with a recorded event it alerts
exactly when the elapsed seconds since that event strictly exceed the
threshold; and checking immediately after `record_event` yields false. -/
theorem claim_C1 (t now : Nat) (m : HealthMonitor) :
    m.should_alert_no_events 0 now = false ∧
    (0 < t → m.last_event_time = none → m.start_time ≤ now →
      (m.should_alert_no_events t now = true ↔ t < now - m.start_time)) ∧
    (∀ last : Nat, 0 < t → m.last_event_time = some last → last ≤ now →
      (m.should_alert_no_events t now = true ↔ t < now - last)) ∧
    (m.record_event now).should_alert_no_events t now = false := by
  refine ⟨?_, ?_, ?_, ?_⟩
  · simp [HealthMonitor.should_alert_no_events]
  · intro ht hn hs
    have ht' : ¬ t = 0 := by omega
    simp only [HealthMonitor.should_alert_no_events, hn, if_neg ht', elapsedOrZero,
      if_pos hs, gt_iff_lt, decide_eq_true_eq]
  · intro last ht hl hs
    have ht' : ¬ t = 0 := by omega
    simp only [HealthMonitor.should_alert_no_events, hl, if_neg ht', elapsedOrMax,
      if_pos hs, gt_iff_lt, decide_eq_true_eq]
  · simp only [HealthMonitor.record_event, HealthMonitor.should_alert_no_events]
    split
    · rfl
    · simp [elapsedOrMax]

theorem claim_C1_witness :
    ((HealthMonitor.new 0).should_alert_no_events 10 20 = true ↔
      10 < 20 - (HealthMonitor.new 0).start_time) ∧
    (((HealthMonitor.new 0).record_event 5).should_alert_no_events 10 20 = true ↔
      10 < 20 - 5) :=
  ⟨(claim_C1 10 20 (HealthMonitor.new 0)).2.1 (by decide) (by decide) (by decide),
   (claim_C1 10 20 ((HealthMonitor.new 0).record_event 5)).2.2.1 5
     (by decide) (by decide) (by decide)⟩

/-- C2: the tag-scanning loop of `handle_dispute_event` computes exactly
the spec-side parser: only tags with at least two elements qualify
(element 0 as key, element 1 as value), keys d/s/initiator map to
id/status/initiator with the last occurrence winning, everything else is
ignored, missing fields default to the literal string "unknown", and the
parse is total. -/
theorem claim_C2 (tags : List (List String)) : parseDisputeTags tags = specDispute tags := by
  refine disputeFields_ext _ _ ?_ ?_ ?_
  · rw [parse_dispute_id]; rfl
  · rw [parse_status]; rfl
  · rw [parse_initiator]; rfl

/-- C3, counterexample: with two qualifying `d` tags, the parsed id is NOT
the first occurrence's value. -/
theorem claim_C3_counterexample :
    ¬ (parseDisputeTags [["d", "a"], ["d", "b"]]).dispute_id = "a" := by decide

/-- C3, amended: with two or more qualifying tags of the same key, the
`DisputeEvent` field is constructed from the LAST occurrence of that key
in scan order (not the first). -/
theorem claim_C3 (tags : List (List String)) :
    (2 ≤ (tags.filterMap (tagKeyVal "d")).length →
      (parseDisputeTags tags).dispute_id
        = ((tags.filterMap (tagKeyVal "d")).getLast?).getD "unknown") ∧
    (2 ≤ (tags.filterMap (tagKeyVal "s")).length →
      (parseDisputeTags tags).status
        = ((tags.filterMap (tagKeyVal "s")).getLast?).getD "unknown") ∧
    (2 ≤ (tags.filterMap (tagKeyVal "initiator")).length →
      (parseDisputeTags tags).initiator
        = ((tags.filterMap (tagKeyVal "initiator")).getLast?).getD "unknown") :=
  ⟨fun _ => parse_dispute_id tags, fun _ => parse_status tags,
   fun _ => parse_initiator tags⟩

theorem claim_C3_witness :
    (parseDisputeTags [["d", "a"], ["d", "b"]]).dispute_id
      = (([["d", "a"], ["d", "b"]].filterMap (tagKeyVal "d")).getLast?).getD "unknown" :=
  (claim_C3 [["d", "a"], ["d", "b"]]).1 (by decide)

/-- C5: `escape_markdown` inserts one preceding backslash before each
character of the fixed special set and passes every other character
through unchanged, preserving order; on a string made only of special
characters the output is exactly twice as long. -/
theorem claim_C5 :
    (∀ cs : List Char, escape_markdown_chars cs
        = cs.flatMap fun c => if c ∈ special_chars then ['\\', c] else [c]) ∧
    ∀ s : String, (∀ c ∈ s.data, c ∈ special_chars) →
      (escape_markdown s).length = 2 * s.length := by
  have hmain : ∀ cs : List Char, escape_markdown_chars cs
      = cs.flatMap fun c => if c ∈ special_chars then ['\\', c] else [c] := by
    intro cs
    induction cs with
    | nil => rfl
    | cons c cs ih =>
      rw [escape_markdown_chars, List.flatMap_cons, ih]
      congr 1
      by_cases h : c ∈ special_chars
      · rw [if_pos (List.elem_iff.mpr h), if_pos h]
      · rw [if_neg ?_, if_neg h]
        intro hc
        exact h (List.elem_iff.mp hc)
  refine ⟨hmain, ?_⟩
  have hlen : ∀ cs : List Char, (∀ c ∈ cs, c ∈ special_chars) →
      (escape_markdown_chars cs).length = 2 * cs.length := by
    intro cs
    induction cs with
    | nil => intro _; rfl
    | cons c cs ih =>
      intro hall
      rw [escape_markdown_chars, List.length_append,
        ih fun c' hc' => hall c' (List.mem_cons_of_mem _ hc'),
        if_pos (List.elem_iff.mpr (hall c (List.mem_cons_self _ _)))]
      simp [Nat.mul_succ]
      omega
  intro s hall
  rw [escape_markdown, String.length_mk]
  exact hlen s.data hall

theorem claim_C5_witness :
    (escape_markdown "_*").length = 2 * ("_*" : String).length :=
  claim_C5.2 "_*" (by decide)

/-- C6: `escape_markdown_code` inserts a preceding backslash before each
backtick and each backslash only, leaving every other character (in
particular the 17 other Markdown-special characters) untouched,
preserving order. -/
theorem claim_C6 :
    (∀ cs : List Char, escape_markdown_code_chars cs
        = cs.flatMap fun c => if c = '\x60' ∨ c = '\\' then ['\\', c] else [c]) ∧
    ∀ s : String, (∀ c ∈ s.data, c ∈ code_untouched_chars) →
      escape_markdown_code s = s := by
  constructor
  · intro cs
    induction cs with
    | nil => rfl
    | cons c cs ih => rw [escape_markdown_code_chars, List.flatMap_cons, ih]
  · have hid : ∀ cs : List Char, (∀ c ∈ cs, c ∈ code_untouched_chars) →
        escape_markdown_code_chars cs = cs := by
      intro cs
      induction cs with
      | nil => intro _; rfl
      | cons c cs ih =>
        intro hall
        have hc := hall c (List.mem_cons_self _ _)
        have hne : ¬ (c = '\x60' ∨ c = '\\') := by
          fin_cases hc <;> decide
        rw [escape_markdown_code_chars, if_neg hne,
          ih fun c' hc' => hall c' (List.mem_cons_of_mem _ hc')]
        rfl
    intro s hall
    rw [escape_markdown_code, hid s.data hall]

theorem claim_C6_witness : escape_markdown_code "_*()." = "_*()." := by
  have h := claim_C6.2 "_*()."
  exact h (by decide)

/-- C9: `is_healthy` is set to true at construction, no program operation
ever writes it afterwards, so every reachable state has
`is_healthy = true` and every status snapshot renders the `"healthy"`
branch — the `"unhealthy"` rendering is unreachable. -/
theorem claim_C9 (start : Nat) (ops : List HealthOp) (now : Nat) (version : String) :
    (runOps start ops).is_healthy = true ∧
    (runOps start ops).get_status_json now version
      = statusJsonHealthy (runOps start ops) now version ∧
    statusJsonHealthy (HealthMonitor.new 0) 0 "0.1.0"
      = "\x7b\"status\":\"healthy\",\"uptime_seconds\":0,\"events_processed\":0,\"last_event_timestamp\":null,\"last_heartbeat_timestamp\":null,\"version\":\"0.1.0\"\x7d" := by
  have h : (runOps start ops).is_healthy = true :=
    foldl_applyOp_healthy ops (HealthMonitor.new start) rfl
  exact ⟨h, get_status_json_healthy _ _ _ h, by decide⟩

/-- C4: the gate decision matches the status byte-exactly against the five
named categories and maps everything else (including the empty string) to
`other`; a disabled gate yields no send call, an enabled one yields
exactly one; end-to-end, disabling `initiated` suppresses the send for an
initiated event while a settled event still produces exactly one send. -/
theorem claim_C4 (status : String) (cfg : AlertsConfig) (tags : List (List String))
    (created_at : Nat) :
    should_send_alert "initiated" cfg = cfg.initiated ∧
    should_send_alert "in-progress" cfg = cfg.in_progress ∧
    should_send_alert "seller-refunded" cfg = cfg.seller_refunded ∧
    should_send_alert "settled" cfg = cfg.settled ∧
    should_send_alert "released" cfg = cfg.released ∧
    (¬ status ∈ (["initiated", "in-progress", "seller-refunded", "settled",
        "released"] : List String) →
      should_send_alert status cfg = cfg.other) ∧
    should_send_alert "" cfg = cfg.other ∧
    (should_send_alert (parseDisputeTags tags).status cfg = false →
      handle_dispute_event tags created_at cfg = []) ∧
    (should_send_alert (parseDisputeTags tags).status cfg = true →
      (handle_dispute_event tags created_at cfg).length = 1) ∧
    handle_dispute_event [["d", "x"], ["s", "initiated"]] created_at
      { AlertsConfig.default with initiated := false } = [] ∧
    (handle_dispute_event [["d", "x"], ["s", "settled"]] created_at
      { AlertsConfig.default with initiated := false }).length = 1 := by
  refine ⟨?_, ?_, ?_, ?_, ?_, ?_, ?_, ?_, ?_, ?_, ?_⟩
  · simp [should_send_alert]
  · simp [should_send_alert]
  · simp [should_send_alert]
  · simp [should_send_alert]
  · simp [should_send_alert]
  · intro h
    simp only [List.mem_cons, List.mem_singleton, List.not_mem_nil] at h
    push_neg at h
    obtain ⟨h1, h2, h3, h4, h5⟩ := h
    simp [should_send_alert, h1, h2, h3, h4, h5]
  · simp [should_send_alert]
  · intro h
    simp [handle_dispute_event, h]
  · intro h
    simp [handle_dispute_event, h]
  · simp [handle_dispute_event, parseDisputeTags, scanTag, should_send_alert,
      AlertsConfig.default]
  · simp [handle_dispute_event, parseDisputeTags, scanTag, should_send_alert,
      AlertsConfig.default]

theorem claim_C4_witness :
    should_send_alert "zzz" AlertsConfig.default = AlertsConfig.default.other ∧
    (handle_dispute_event [["s", "settled"]] 0 AlertsConfig.default).length = 1 :=
  ⟨(claim_C4 "zzz" AlertsConfig.default [] 0).2.2.2.2.2.1 (by decide),
   (claim_C4 "zzz" AlertsConfig.default [["s", "settled"]] 0).2.2.2.2.2.2.2.2.1
     (by decide)⟩

theorem silenceTickStep_spec (threshold la : Nat) (tk : SilenceTick) :
    ((silenceTickStep threshold la tk).2 = true →
      (silenceTickStep threshold la tk).1 = tk.now ∧
      tk.health.should_alert_no_events threshold tk.now = true ∧
      threshold ≤ elapsedOrMax la tk.now ∧ tk.sendOk = true) ∧
    ((silenceTickStep threshold la tk).2 = false →
      (silenceTickStep threshold la tk).1 = la) := by
  unfold silenceTickStep
  split_ifs with h1 h2 h3 <;> simp_all

theorem silenceRun_sep (threshold : Nat) : ∀ (ticks : List SilenceTick) (la₀ : Nat),
    List.Pairwise (fun a b => a.now ≤ b.now) ticks →
    (∀ tk ∈ ticks, la₀ ≤ tk.now) →
    (∀ s ∈ silenceRun threshold la₀ ticks, la₀ + threshold ≤ s) ∧
    List.Chain' (sepBy threshold) (silenceRun threshold la₀ ticks) := by
  intro ticks
  induction ticks with
  | nil => intro la₀ _ _; exact ⟨by simp [silenceRun], by simp [silenceRun]⟩
  | cons tk rest ih =>
    intro la₀ hmono hla
    obtain ⟨hhead, hrest⟩ := List.pairwise_cons.mp hmono
    cases hsent : (silenceTickStep threshold la₀ tk).2 with
    | false =>
      have hkeep : (silenceTickStep threshold la₀ tk).1 = la₀ :=
        (silenceTickStep_spec threshold la₀ tk).2 hsent
      have hrec := ih la₀ hrest fun tk' h' => hla tk' (List.mem_cons_of_mem _ h')
      constructor
      · intro s hs
        simp [silenceRun, hsent, hkeep] at hs
        exact hrec.1 s hs
      · simp [silenceRun, hsent, hkeep]
        exact hrec.2
    | true =>
      have hspec := (silenceTickStep_spec threshold la₀ tk).1 hsent
      have hnow : la₀ ≤ tk.now := hla tk (List.mem_cons_self _ _)
      have hbound : la₀ + threshold ≤ tk.now := by
        have hgate := hspec.2.2.1
        unfold elapsedOrMax at hgate
        rw [if_pos hnow] at hgate
        omega
      have hrec := ih tk.now hrest hhead
      constructor
      · intro s hs
        simp [silenceRun, hsent, hspec.1] at hs
        rcases hs with h | h
        · omega
        · have := hrec.1 s h
          omega
      · simp [silenceRun, hsent, hspec.1]
        rw [List.chain'_cons']
        refine ⟨?_, hrec.2⟩
        intro b hb
        exact hrec.1 b (List.mem_of_mem_head? hb)

/-- C8: over any chronologically ordered trace of ticks, the event-silence
task sends an alert only when `should_alert_no_events` holds, the send
succeeds, and at least `threshold` seconds have elapsed since the last
successful alert; the local marker changes only on a successful send; and
consecutive successful alerts are always at least `threshold` seconds
apart (`sepBy`). -/
theorem claim_C8 (threshold la₀ : Nat) (ticks : List SilenceTick)
    (hmono : List.Pairwise (fun a b => a.now ≤ b.now) ticks)
    (hla : ∀ tk ∈ ticks, la₀ ≤ tk.now) :
    (∀ s ∈ silenceRun threshold la₀ ticks, la₀ + threshold ≤ s) ∧
    List.Chain' (sepBy threshold) (silenceRun threshold la₀ ticks) ∧
    ∀ (la : Nat) (tk : SilenceTick),
      ((silenceTickStep threshold la tk).2 = true →
        tk.health.should_alert_no_events threshold tk.now = true ∧
        threshold ≤ elapsedOrMax la tk.now ∧ tk.sendOk = true) ∧
      ((silenceTickStep threshold la tk).1 ≠ la →
        (silenceTickStep threshold la tk).2 = true) := by
  refine ⟨(silenceRun_sep threshold ticks la₀ hmono hla).1,
    (silenceRun_sep threshold ticks la₀ hmono hla).2, ?_⟩
  intro la tk
  constructor
  · intro h
    exact ((silenceTickStep_spec threshold la tk).1 h).2
  · intro hne
    cases hsent : (silenceTickStep threshold la tk).2 with
    | true => rfl
    | false => exact absurd ((silenceTickStep_spec threshold la tk).2 hsent) hne

theorem claim_C8_witness :
    List.Chain' (sepBy 10) (silenceRun 10 0
      [⟨15, HealthMonitor.new 0, true⟩, ⟨20, HealthMonitor.new 0, true⟩]) :=
  (claim_C8 10 0 [⟨15, HealthMonitor.new 0, true⟩, ⟨20, HealthMonitor.new 0, true⟩]
    (by decide) (by decide)).2.1

/-! ### Timestamp conversion lemmas -/

theorem days_in_year_ge (y : Int) : 365 ≤ days_in_year y := by
  unfold days_in_year
  split <;> omega

theorem yearLoopAux_congr : ∀ (f₁ f₂ : Nat) (y r : Int), r.toNat < f₁ → r.toNat < f₂ →
    yearLoopAux f₁ y r = yearLoopAux f₂ y r := by
  intro f₁
  induction f₁ with
  | zero => intro f₂ y r h1 _; omega
  | succ f ih =>
    intro f₂ y r h1 h2
    cases f₂ with
    | zero => omega
    | succ f₂' =>
      simp only [yearLoopAux]
      by_cases hlt : r < days_in_year y
      · rw [if_pos hlt, if_pos hlt]
      · rw [if_neg hlt, if_neg hlt]
        have h365 := days_in_year_ge y
        have hdec : (r - days_in_year y).toNat < r.toNat := by
          rw [Int.toNat_lt_toNat (by omega)]
          omega
        exact ih f₂' (y + 1) (r - days_in_year y) (by omega) (by omega)

theorem yearLoopRec_eq_auxN : ∀ (n : Nat) (y r : Int), r.toNat ≤ n →
    yearLoopRec y r = yearLoopAux (r.toNat + 1) y r := by
  intro n
  induction n with
  | zero =>
    intro y r h
    have h0 : r ≤ 0 := Int.toNat_eq_zero.mp (by omega)
    have hlt : r < days_in_year y := by have := days_in_year_ge y; omega
    rw [yearLoopRec]
    simp only [yearLoopAux]
    rw [if_pos hlt, if_pos hlt]
  | succ n ih =>
    intro y r h
    rw [yearLoopRec]
    simp only [yearLoopAux]
    by_cases hlt : r < days_in_year y
    · rw [if_pos hlt, if_pos hlt]
    · rw [if_neg hlt, if_neg hlt]
      have h365 := days_in_year_ge y
      have hdec : (r - days_in_year y).toNat < r.toNat := by
        rw [Int.toNat_lt_toNat (by omega)]
        omega
      rw [ih (y + 1) (r - days_in_year y) (by omega)]
      exact yearLoopAux_congr _ _ _ _ (by omega) (by omega)

theorem yearLoopRec_eq_aux (y r : Int) : yearLoopRec y r = yearLoopAux (r.toNat + 1) y r :=
  yearLoopRec_eq_auxN r.toNat y r (Nat.le_refl _)

theorem chronoDate_eq_fuel (d : Int) : chronoDate d = chronoDateFuel d := by
  unfold chronoDate chronoDateFuel
  rw [yearLoopRec_eq_aux]

theorem chrono_eq_fuel (unix : Nat) : chrono_timestamp unix = chrono_timestamp_fuel unix := by
  simp only [chrono_timestamp, chrono_timestamp_fuel, chronoDate_eq_fuel]

theorem padNum_length (w : Nat) (n : Int) : w ≤ (padNum w n).length := by
  unfold padNum
  have hdash : ("-" : String).length = 1 := rfl
  split_ifs with h
  · simp only [String.length_append, String.length_mk, List.length_replicate]
    omega
  · simp only [String.length_append, String.length_mk, List.length_replicate]
    omega

theorem render_length (y d h mi s : Int) (m : Nat) :
    23 ≤ (padNum 4 y ++ "-" ++ padNum 2 (m : Int) ++ "-" ++ padNum 2 d ++ " " ++
      padNum 2 h ++ ":" ++ padNum 2 mi ++ ":" ++ padNum 2 s ++ " UTC").length := by
  simp only [String.length_append]
  have h1 := padNum_length 4 y
  have h2 := padNum_length 2 (m : Int)
  have h3 := padNum_length 2 d
  have h4 := padNum_length 2 h
  have h5 := padNum_length 2 mi
  have h6 := padNum_length 2 s
  have hd : ("-" : String).length = 1 := rfl
  have hsp : (" " : String).length = 1 := rfl
  have hc : (":" : String).length = 1 := rfl
  have hu : (" UTC" : String).length = 4 := rfl
  omega

theorem chrono_length (unix : Nat) : 23 ≤ (chrono_timestamp unix).length := by
  simp only [chrono_timestamp]
  exact render_length _ _ _ _ _ _

theorem yearLoopAux_inv : ∀ (fuel : Nat) (y r : Int), 0 ≤ r → r.toNat < fuel →
    ∃ n : Nat, yearLoopAux fuel y r = (y + n, r - sumYearsFrom y n) ∧
      sumYearsFrom y n ≤ r ∧ r - sumYearsFrom y n < days_in_year (y + n) := by
  intro fuel
  induction fuel with
  | zero => intro y r h0 h; omega
  | succ f ih =>
    intro y r h0 h
    simp only [yearLoopAux]
    by_cases hlt : r < days_in_year y
    · refine ⟨0, ?_, ?_, ?_⟩
      · rw [if_pos hlt]
        simp [sumYearsFrom]
      · simpa [sumYearsFrom] using h0
      · simpa [sumYearsFrom] using hlt
    · rw [if_neg hlt]
      have h365 := days_in_year_ge y
      have hdec : (r - days_in_year y).toNat < r.toNat := by
        rw [Int.toNat_lt_toNat (by omega)]
        omega
      obtain ⟨n, heq, hle, hlt2⟩ := ih (y + 1) (r - days_in_year y) (by omega) (by omega)
      have hS : sumYearsFrom y (n + 1) = days_in_year y + sumYearsFrom (y + 1) n := rfl
      have hcast : (((n + 1 : Nat)) : Int) = (n : Int) + 1 := by push_cast; ring
      refine ⟨n + 1, ?_, by omega, ?_⟩
      · rw [heq, hS, hcast, Prod.mk.injEq]
        constructor
        · ring
        · ring
      · rw [hS, hcast]
        have harg : y + ((n : Int) + 1) = y + 1 + (n : Int) := by ring
        rw [harg]
        omega

theorem monthLoop_inv : ∀ (mds : List Int) (r : Int) (m0 : Nat), 0 ≤ r → r < mds.sum →
    (∀ md ∈ mds, 0 < md) →
    ∃ k : Nat, monthLoop mds r m0 = (m0 + k, r - (mds.take k).sum) ∧
      k < mds.length ∧ (mds.take k).sum ≤ r ∧
      r - (mds.take k).sum < mds.getD k 0 := by
  intro mds
  induction mds with
  | nil => intro r m0 h0 hs _; simp at hs; omega
  | cons md rest ih =>
    intro r m0 h0 hs hpos
    simp only [monthLoop]
    by_cases hlt : r < md
    · refine ⟨0, ?_, ?_, ?_, ?_⟩
      · rw [if_pos hlt]
        simp
      · simp
      · simpa using h0
      · simpa using hlt
    · rw [if_neg hlt]
      rw [List.sum_cons] at hs
      have hmdpos : 0 < md := hpos md (List.mem_cons_self _ _)
      obtain ⟨k, heq, hklen, hkle, hklt⟩ := ih (r - md) (m0 + 1) (by omega) (by omega)
        (fun x hx => hpos x (List.mem_cons_of_mem _ hx))
      have htake : ((md :: rest).take (k + 1)).sum = md + (rest.take k).sum := by
        rw [List.take_succ_cons, List.sum_cons]
      refine ⟨k + 1, ?_, ?_, ?_, ?_⟩
      · rw [heq, htake, Prod.mk.injEq]
        constructor
        · omega
        · ring
      · simp only [List.length_cons]
        omega
      · rw [htake]; omega
      · rw [htake, List.getD_cons_succ]
        omega

theorem month_days_sum (y : Int) : (month_days (leapOf y)).sum = days_in_year y := by
  unfold leapOf days_in_year
  by_cases h : y.tmod 4 = 0 ∧ (y.tmod 100 ≠ 0 ∨ y.tmod 400 = 0)
  · rw [decide_eq_true h, if_pos h]
    decide
  · rw [decide_eq_false h, if_neg h]
    decide

theorem month_days_pos (b : Bool) : ∀ md ∈ month_days b, 0 < md := by
  cases b <;> decide

theorem month_days_length (b : Bool) : (month_days b).length = 12 := by
  cases b <;> rfl

theorem sumYearsFrom_nonneg (n : Nat) : ∀ y : Int, 0 ≤ sumYearsFrom y n := by
  induction n with
  | zero => intro y; exact le_refl 0
  | succ n ih =>
    intro y
    have h365 := days_in_year_ge y
    have := ih (y + 1)
    show (0 : Int) ≤ days_in_year y + sumYearsFrom (y + 1) n
    omega

theorem sumYearsFrom_add (a : Nat) : ∀ (y : Int) (b : Nat),
    sumYearsFrom y (a + b) = sumYearsFrom y a + sumYearsFrom (y + a) b := by
  induction a with
  | zero =>
    intro y b
    simp [sumYearsFrom]
  | succ a ih =>
    intro y b
    have h1 : a + 1 + b = (a + b) + 1 := by omega
    rw [h1]
    show days_in_year y + sumYearsFrom (y + 1) (a + b)
      = sumYearsFrom y (a + 1) + sumYearsFrom (y + ((a + 1 : Nat) : Int)) b
    rw [ih (y + 1) b]
    have h2 : sumYearsFrom y (a + 1) = days_in_year y + sumYearsFrom (y + 1) a := rfl
    have h3 : (y + ((a + 1 : Nat) : Int)) = y + 1 + (a : Int) := by push_cast; ring
    rw [h2, h3]
    ring

theorem chronoDate_correct (r : Int) (hr0 : 0 ≤ r) (hrlt : r < 47482) :
    1970 ≤ chronoY r ∧ chronoY r ≤ 2099 ∧
    1 ≤ chronoM r ∧ chronoM r ≤ 12 ∧
    1 ≤ chronoD r ∧ chronoD r ≤ daysInMonth (chronoY r) (chronoM r) ∧
    days_from_civil (chronoY r) (chronoM r) (chronoD r) = r := by
  obtain ⟨n, heq, hle, hltY⟩ := yearLoopAux_inv (r.toNat + 1) 1970 r hr0 (by omega)
  set y : Int := 1970 + (n : Int) with hy
  set rem : Int := r - sumYearsFrom 1970 n with hrem
  have hsum := month_days_sum y
  obtain ⟨k, heqM, hklen, hkle, hklt⟩ := monthLoop_inv (month_days (leapOf y)) rem 0
    (by omega) (by rw [hsum]; exact hltY) (month_days_pos _)
  have hCD : chronoDate r = (y, k + 1, rem - ((month_days (leapOf y)).take k).sum + 1) := by
    rw [chronoDate_eq_fuel]
    simp [chronoDateFuel, heq, heqM]
  have hYc : chronoY r = y := by simp only [chronoY, hCD]
  have hMc : chronoM r = k + 1 := by simp only [chronoM, hCD]
  have hDc : chronoD r = rem - ((month_days (leapOf y)).take k).sum + 1 := by
    simp only [chronoD, hCD]
  have h130 : sumYearsFrom 1970 130 = 47482 := by
    set_option maxRecDepth 4000 in decide
  have hn129 : n ≤ 129 := by
    by_contra hc
    push_neg at hc
    have hsplit := sumYearsFrom_add 130 1970 (n - 130)
    rw [show 130 + (n - 130) = n from by omega] at hsplit
    have hpos := sumYearsFrom_nonneg (n - 130) (1970 + ((130 : Nat) : Int))
    omega
  have hlen := month_days_length (leapOf y)
  refine ⟨?_, ?_, ?_, ?_, ?_, ?_, ?_⟩
  · rw [hYc, hy]
    omega
  · rw [hYc, hy]
    omega
  · rw [hMc]
    omega
  · rw [hMc]
    omega
  · rw [hDc]
    omega
  · rw [hDc, hMc, hYc]
    have hdm : daysInMonth y (k + 1) = (month_days (leapOf y)).getD k 0 := by
      unfold daysInMonth
      simp
    rw [hdm]
    omega
  · rw [hYc, hMc, hDc]
    unfold days_from_civil
    have hyn : (y - 1970).toNat = n := by
      rw [hy]
      simp [Int.toNat_natCast]
    rw [hyn]
    simp only [Nat.add_sub_cancel]
    omega

/-- C7: `chrono_timestamp` renders `YYYY-MM-DD HH:MM:SS UTC` under
proleptic Gregorian rules with the standard leap-year test throughout
the operating range (dates up to 2099-12-31): the produced civil date
inverts the Gregorian day count of the input and the time fields are the
base-60/24 decomposition of the seconds of day; the three anchor values
agree with the spec. -/
theorem claim_C7 :
    chrono_timestamp 1609459200 = "2021-01-01 00:00:00 UTC" ∧
    chrono_timestamp 1582934400 = "2020-02-29 00:00:00 UTC" ∧
    chrono_timestamp 0 = "1970-01-01 00:00:00 UTC" ∧
    ∀ unix : Nat, unix < 4102444800 →
      (u64ToI64 unix).tdiv 86400 = ((unix / 86400 : Nat) : Int) ∧
      1970 ≤ chronoY ((unix / 86400 : Nat) : Int) ∧
      chronoY ((unix / 86400 : Nat) : Int) ≤ 2099 ∧
      1 ≤ chronoM ((unix / 86400 : Nat) : Int) ∧
      chronoM ((unix / 86400 : Nat) : Int) ≤ 12 ∧
      1 ≤ chronoD ((unix / 86400 : Nat) : Int) ∧
      chronoD ((unix / 86400 : Nat) : Int)
        ≤ daysInMonth (chronoY ((unix / 86400 : Nat) : Int))
            (chronoM ((unix / 86400 : Nat) : Int)) ∧
      days_from_civil (chronoY ((unix / 86400 : Nat) : Int))
          (chronoM ((unix / 86400 : Nat) : Int))
          (chronoD ((unix / 86400 : Nat) : Int))
        = ((unix / 86400 : Nat) : Int) ∧
      unix % 86400 / 3600 < 24 ∧
      unix % 86400 % 3600 / 60 < 60 ∧
      unix % 86400 % 60 < 60 ∧
      (unix % 86400 / 3600) * 3600 + (unix % 86400 % 3600 / 60) * 60 + unix % 86400 % 60
        = unix % 86400 ∧
      chrono_timestamp unix =
        padNum 4 (chronoY ((unix / 86400 : Nat) : Int)) ++ "-" ++
        padNum 2 ((chronoM ((unix / 86400 : Nat) : Int) : Nat) : Int) ++ "-" ++
        padNum 2 (chronoD ((unix / 86400 : Nat) : Int)) ++ " " ++
        padNum 2 ((unix % 86400 / 3600 : Nat) : Int) ++ ":" ++
        padNum 2 ((unix % 86400 % 3600 / 60 : Nat) : Int) ++ ":" ++
        padNum 2 ((unix % 86400 % 60 : Nat) : Int) ++ " UTC" := by
  refine ⟨?_, ?_, ?_, ?_⟩
  · rw [chrono_eq_fuel]
    decide
  · rw [chrono_eq_fuel]
    decide
  · rw [chrono_eq_fuel]
    decide
  intro unix hu
  have hsecs : u64ToI64 unix = (unix : Int) := by
    unfold u64ToI64
    rw [if_pos (show unix % 2 ^ 64 < 2 ^ 63 by omega)]
    omega
  have hdays : (u64ToI64 unix).tdiv 86400 = ((unix / 86400 : Nat) : Int) := by
    rw [hsecs]
    exact rfl
  have hr0 : (0 : Int) ≤ ((unix / 86400 : Nat) : Int) := Int.natCast_nonneg _
  have hrlt : ((unix / 86400 : Nat) : Int) < 47482 := by
    have h1 : unix / 86400 < 47482 := by omega
    exact_mod_cast h1
  have hmain := chronoDate_correct _ hr0 hrlt
  refine ⟨hdays, hmain.1, hmain.2.1, hmain.2.2.1, hmain.2.2.2.1, hmain.2.2.2.2.1,
    hmain.2.2.2.2.2.1, hmain.2.2.2.2.2.2, by omega, by omega, by omega, by omega, ?_⟩
  simp only [chrono_timestamp, chronoY, chronoM, chronoD]
  rw [hsecs]
  exact rfl

theorem claim_C7_witness :
    days_from_civil (chronoY ((1609459200 / 86400 : Nat) : Int))
      (chronoM ((1609459200 / 86400 : Nat) : Int))
      (chronoD ((1609459200 / 86400 : Nat) : Int))
      = ((1609459200 / 86400 : Nat) : Int) :=
  (claim_C7.2.2.2 1609459200 (by norm_num)).2.2.2.2.2.2.2.1

/-- C10: `chrono_timestamp` is total on every `u64` input — the year loop
terminates within `days.toNat + 1` iterations (it equals the fuel-bounded
loop everywhere), the month loop is a fold over a fixed 12-entry list,
and the result is always a well-formed fixed-width string, even for
inputs whose cast to `i64` is negative. -/
theorem claim_C10 :
    (∀ unix : Nat, chrono_timestamp unix = chrono_timestamp_fuel unix) ∧
    (∀ unix : Nat, 23 ≤ (chrono_timestamp unix).length) ∧
    chrono_timestamp (2 ^ 64 - 1) = "1970-01-01 00:00:-1 UTC" := by
  refine ⟨chrono_eq_fuel, chrono_length, ?_⟩
  rw [chrono_eq_fuel]
  set_option maxRecDepth 8000 in decide

end MostroWatchdog
